import Mathlib

/-!
Verification of the aitios-sim gammaton weathering simulator core.

Shallow embedding of the Rust sources over exact rational arithmetic
(ℚ stands in for `f32`; the spec's quantitative claims are stated "in real
arithmetic"). External collaborator crates (the octree of aitios-spatial,
the surfel spatial index of aitios-surf, the samplers and the thread-local
rng) are abstracted to the interfaces the spec describes, passed in as
explicit oracles.
-/

namespace AitiosSim

/-- 3D vector over ℚ, embedding `geom::Vec3`. -/
structure V3 where
  x : ℚ
  y : ℚ
  z : ℚ
deriving DecidableEq, Repr, Inhabited

/-- Dot product of two vectors. -/
def V3.dot (a b : V3) : ℚ := a.x * b.x + a.y * b.y + a.z * b.z

/-- Squared Euclidean distance between two points (used instead of the
Euclidean distance so that sphere membership stays inside ℚ;
`distSq a b ≤ r * r` is equivalent to `dist a b ≤ r` for `r ≥ 0`). -/
def V3.distSq (a b : V3) : ℚ :=
  (a.x - b.x) * (a.x - b.x) + (a.y - b.y) * (a.y - b.y) + (a.z - b.z) * (a.z - b.z)

/-- Embeds `SurfelRule` from src/surfel_rule.rs, restricted to the two
variants that `Simulation::perform_rule` in src/sim.rs lines 222-234
actually matches (the snapshot's surfel_rule.rs additionally declares a
`Deposit` variant which that match does not cover). -/
inductive SurfelRule where
  | Deteriorate (substance_idx : Nat) (factor : ℚ)
  | Transfer (source_substance_idx target_substance_idx : Nat) (factor : ℚ)
deriving DecidableEq, Repr

/-- Embeds `SurfelData` from src/surfel_data.rs. -/
structure SurfelData where
  entity_idx : Nat
  delta_straight : ℚ
  delta_parabolic : ℚ
  delta_flow : ℚ
  substances : List ℚ
  deposition_rates : List ℚ
  rules : List SurfelRule
deriving DecidableEq, Repr, Inhabited

/-- Embeds `surf::Surfel<Vertex, SurfelData>`: the vertex (position and
normal; texture coordinates are never read by the simulation) plus the
surfel data. -/
structure Surfel where
  position : V3
  normal : V3
  data : SurfelData
deriving DecidableEq, Repr, Inhabited

/-- Embeds `Ton` from src/ton.rs. -/
structure Ton where
  p_straight : ℚ
  p_parabolic : ℚ
  p_flow : ℚ
  interaction_radius : ℚ
  parabola_height : ℚ
  flow_distance : ℚ
  substances : List ℚ
  pickup_rates : List ℚ
deriving DecidableEq, Repr, Inhabited

/-- Embeds the private `MotionType` enum of src/sim.rs lines 25-31. -/
inductive MotionType where
  | Straight
  | Parabolic
  | Flow
  | Settled
deriving DecidableEq, Repr, Inhabited

/-- A hit triangle as read by the embedded code: of `TupleTriangle<Vertex>`
only the face normal is consulted by the bounce-layer logic (the tangent
matrix and sampling uses live behind the trace oracles). -/
structure Tri where
  normal : V3
deriving DecidableEq, Repr, Inhabited

/-- A hit record as carried through `run_fast`: the tuple
`(Ton, Vec3, Vec3, Tri)` = (ton, intersection point, incoming direction,
hit triangle) of src/sim.rs line 92. -/
structure HitRec where
  ton : Ton
  intersection_point : V3
  incoming_direction : V3
  triangle : Tri
deriving DecidableEq, Repr, Inhabited

/-! ## Substance transport (src/transport.rs and src/sim.rs) -/

/-- One channel of `absorb` (the loop body shared verbatim by
src/sim.rs lines 390-402 and src/transport.rs lines 162-174): the pickup
rate is weighted by `count_weight`; a non-negative weighted rate moves
`rate · surfel_material` from surfel to ton, a negative one moves
`rate · ton_material`; both writes clamp at zero. Returns the pair
(ton_material, surfel_material) after the exchange. -/
def absorbChan (count_weight pickup_rate ton_material surfel_material : ℚ) : ℚ × ℚ :=
  let pickup_rate := count_weight * pickup_rate
  let transport_amount := pickup_rate * (if 0 ≤ pickup_rate then surfel_material else ton_material)
  (max (ton_material + transport_amount) 0, max (surfel_material - transport_amount) 0)

/-- The zipped per-channel loop of `absorb`:
`pickup_rates.iter().zip(ton.substances.iter_mut().zip(surfel.substances.iter_mut()))`.
Channels beyond the shortest list are left untouched, matching in-place
iteration over zipped iterators. Returns (ton substances, surfel substances). -/
def absorbSub (count_weight : ℚ) : List ℚ → List ℚ → List ℚ → List ℚ × List ℚ
  | pr :: prs, t :: ts, s :: ss =>
      let head := absorbChan count_weight pr t s
      let rest := absorbSub count_weight prs ts ss
      (head.1 :: rest.1, head.2 :: rest.2)
  | _, ts, ss => (ts, ss)

/-- `absorb` from src/sim.rs lines 375-403 and src/transport.rs
lines 149-175 (identical bodies): the ton picks up material from an
interacting surfel; a negative pickup rate deposits instead. The
length-equality `assert_eq` of the sources is a fatal precondition and is
not modelled as a crash. -/
def absorb (ton : Ton) (interacting_surfel : SurfelData) (count_weight : ℚ) : Ton × SurfelData :=
  let res := absorbSub count_weight ton.pickup_rates ton.substances interacting_surfel.substances
  ({ ton with substances := res.1 }, { interacting_surfel with substances := res.2 })

/-- One channel of `Simulation::deposit` (src/sim.rs lines 422-427): the
deposition rate is weighted by `count_weight`, the transported amount is
`rate · ton_material`, and the surfel write clamps at zero. The ton is
behind a shared reference and is not written. -/
def Sim.depositChan (count_weight deposition_rate ton_material surfel_material : ℚ) : ℚ :=
  let deposition_rate := count_weight * deposition_rate
  let transport_amount := deposition_rate * ton_material
  max (surfel_material + transport_amount) 0

/-- The zipped per-channel loop of `Simulation::deposit` (src/sim.rs
lines 413-427): `deposition_rates.zip(ton.substances.zip(surfel.substances))`. -/
def Sim.depositSub (count_weight : ℚ) : List ℚ → List ℚ → List ℚ → List ℚ
  | dr :: drs, t :: ts, s :: ss =>
      Sim.depositChan count_weight dr t s :: Sim.depositSub count_weight drs ts ss
  | _, _, ss => ss

/-- `Simulation::deposit` from src/sim.rs lines 407-428: deposits the
ton's materials in the interacting surfel. The ton is taken by shared
reference (`ton: &Ton`), so only the surfel changes. -/
def Sim.deposit (ton : Ton) (interacting_surfel : SurfelData) (count_weight : ℚ) : SurfelData :=
  { interacting_surfel with
    substances := Sim.depositSub count_weight interacting_surfel.deposition_rates
      ton.substances interacting_surfel.substances }

/-- One channel of the free function `deposit` of src/transport.rs
lines 137-143: the transported amount is `count_weight · rate · ton_material`
computed from the pre-state ton material; then BOTH the ton material and
the surfel material are written (each clamped at zero), in that order.
Returns (ton_material, surfel_material). -/
def Transport.depositChan (count_weight deposition_rate ton_material surfel_material : ℚ) : ℚ × ℚ :=
  let deposition_rate := count_weight * deposition_rate
  let transport_amount := deposition_rate * ton_material
  (max (ton_material - transport_amount) 0, max (surfel_material + transport_amount) 0)

/-- The zipped per-channel loop of the `deposit` of src/transport.rs
lines 131-143. -/
def Transport.depositSub (count_weight : ℚ) : List ℚ → List ℚ → List ℚ → List ℚ × List ℚ
  | dr :: drs, t :: ts, s :: ss =>
      let head := Transport.depositChan count_weight dr t s
      let rest := Transport.depositSub count_weight drs ts ss
      (head.1 :: rest.1, head.2 :: rest.2)
  | _, ts, ss => (ts, ss)

/-- `deposit` from src/transport.rs lines 124-144 (the body behind the
`Deposit` transport rule). Note that, unlike `Simulation::deposit` of
src/sim.rs and unlike its own doc comment, it writes the ton substances. -/
def Transport.deposit (ton : Ton) (interacting_surfel : SurfelData) (count_weight : ℚ) : Ton × SurfelData :=
  let res := Transport.depositSub count_weight interacting_surfel.deposition_rates
    ton.substances interacting_surfel.substances
  ({ ton with substances := res.1 }, { interacting_surfel with substances := res.2 })

/-- The per-channel loop of `deposit_all` (src/transport.rs lines 117-119):
`surfel.substances.iter_mut().zip(ton.substances.iter())`, writing
`*s += count_weight * t` with no clamp. -/
def depositAllSub (count_weight : ℚ) : List ℚ → List ℚ → List ℚ
  | s :: ss, t :: ts => (s + count_weight * t) :: depositAllSub count_weight ss ts
  | ss, _ => ss

/-- `deposit_all` from src/transport.rs lines 110-120 (the body behind the
`DepositAll` settle rule): the ton's substances are added to the surfel at
weight `count_weight`, unclamped; the ton is not written. -/
def depositAll (ton : Ton) (interacting_surfel : SurfelData) (count_weight : ℚ) : Ton × SurfelData :=
  (ton, { interacting_surfel with
    substances := depositAllSub count_weight interacting_surfel.substances ton.substances })

/-- One channel of `Differential::transport` (src/transport.rs lines 69-79):
for a positive rate, `ton · rate` moves from ton to surfel; otherwise
`surfel · (−rate)` moves from surfel to ton. No write is clamped. -/
def differentialChan (rate ton_material surfel_material : ℚ) : ℚ × ℚ :=
  if 0 < rate then
    let transfer := ton_material * rate
    (ton_material - transfer, surfel_material + transfer)
  else
    let transfer := surfel_material * (-rate)
    (ton_material + transfer, surfel_material - transfer)

/-- The zipped loop of `Differential::transport` (src/transport.rs
lines 63-79): rates are `count_weight * (deposition_rate − pickup_rate)`
channel-wise. -/
def differentialSub (count_weight : ℚ) : List ℚ → List ℚ → List ℚ → List ℚ → List ℚ × List ℚ
  | p :: ps, d :: ds, t :: ts, s :: ss =>
      let head := differentialChan (count_weight * (d - p)) t s
      let rest := differentialSub count_weight ps ds ts ss
      (head.1 :: rest.1, head.2 :: rest.2)
  | _, _, ts, ss => (ts, ss)

/-- `Differential::transport` from src/transport.rs lines 61-81. -/
def differential (ton : Ton) (interacting_surfel : SurfelData) (count_weight : ℚ) : Ton × SurfelData :=
  let res := differentialSub count_weight ton.pickup_rates interacting_surfel.deposition_rates
    ton.substances interacting_surfel.substances
  ({ ton with substances := res.1 }, { interacting_surfel with substances := res.2 })

/-- `AbsorbThenDeposit::transport` from src/transport.rs lines 95-101:
absorb, then the transport.rs deposit, with the same weight. -/
def absorbThenDeposit (ton : Ton) (interacting_surfel : SurfelData) (count_weight : ℚ) : Ton × SurfelData :=
  let res := absorb ton interacting_surfel count_weight
  Transport.deposit res.1 res.2 count_weight

/-! ## Claim C2: the Deposit transport rule and the ton -/

/-- Concrete ton for the C2 evaluation: one substance channel holding 1. -/
def tonC2 : Ton :=
  { p_straight := 0, p_parabolic := 0, p_flow := 0, interaction_radius := 1,
    parabola_height := 1, flow_distance := 1, substances := [1], pickup_rates := [0] }

/-- Concrete surfel data for the C2 evaluation: empty channel, deposition rate 1. -/
def surfC2 : SurfelData :=
  { entity_idx := 0, delta_straight := 0, delta_parabolic := 0, delta_flow := 0,
    substances := [0], deposition_rates := [1], rules := [] }

/-- C2: evaluated at ton substances [1], surfel substances [0], deposition
rates [1], weight 1, the `Deposit` rule of src/transport.rs sets the
surfel channel to max(0, 0 + 1·1·1) = 1 exactly as the claim states, but
it also writes the ton channel down to max(0, 1 − 1) = 0 — contradicting
the claim, the function's own doc comment ("not mutating the ton"), and
the spec; `Simulation::deposit` of src/sim.rs, which takes the ton by
shared reference, performs the same surfel write without touching the ton. -/
theorem c2_transport_deposit_mutates_ton :
    (Transport.deposit tonC2 surfC2 1).2.substances = [1]
    ∧ (Transport.deposit tonC2 surfC2 1).1.substances = [0]
    ∧ (Transport.deposit tonC2 surfC2 1).1.substances ≠ tonC2.substances
    ∧ (Sim.deposit tonC2 surfC2 1).substances = [1] := by
  norm_num [Transport.deposit, Transport.depositSub, Transport.depositChan,
    Sim.deposit, Sim.depositSub, Sim.depositChan, tonC2, surfC2]

/-! ## Claim C5: deterioration preserves the probability invariant -/

/-- `Simulation::deteriorate` from src/sim.rs lines 353-370: the three
motion probabilities are reduced by the surfel's deltas (clamped at zero),
the flow probability additionally gaining the already-updated parabolic
probability; if the results sum to more than 1, the flow probability is
reduced by the excess. -/
def deteriorate (ton : Ton) (surfel : SurfelData) : Ton :=
  let p_straight := max (ton.p_straight - surfel.delta_straight) 0
  let p_parabolic := max (ton.p_parabolic - surfel.delta_parabolic) 0
  let p_flow := max (ton.p_flow + p_parabolic - surfel.delta_flow) 0
  let p_flow :=
    if 1 < p_straight + p_parabolic + p_flow then
      p_flow - (p_straight + p_parabolic + p_flow - 1)
    else p_flow
  { ton with p_straight := p_straight, p_parabolic := p_parabolic, p_flow := p_flow }

/-- C5: if the motion probabilities are each non-negative and sum to at
most 1, and the surfel's deltas are non-negative, then after
`deteriorate` the probabilities are again each non-negative and sum to at
most 1 (the flow probability being reduced by the excess whenever the
updated sum would exceed 1). -/
theorem c5_deteriorate_preserves_probability_invariant (t : Ton) (s : SurfelData)
    (hps : 0 ≤ t.p_straight) (hpp : 0 ≤ t.p_parabolic) (hpf : 0 ≤ t.p_flow)
    (hsum : t.p_straight + t.p_parabolic + t.p_flow ≤ 1)
    (hds : 0 ≤ s.delta_straight) (hdp : 0 ≤ s.delta_parabolic) (_hdf : 0 ≤ s.delta_flow) :
    0 ≤ (deteriorate t s).p_straight ∧ 0 ≤ (deteriorate t s).p_parabolic
    ∧ 0 ≤ (deteriorate t s).p_flow
    ∧ (deteriorate t s).p_straight + (deteriorate t s).p_parabolic + (deteriorate t s).p_flow ≤ 1 := by
  have hs1 : 0 ≤ max (t.p_straight - s.delta_straight) 0 := le_max_right _ _
  have hp1 : 0 ≤ max (t.p_parabolic - s.delta_parabolic) 0 := le_max_right _ _
  have hs2 : max (t.p_straight - s.delta_straight) 0 ≤ t.p_straight :=
    max_le (by linarith) hps
  have hp2 : max (t.p_parabolic - s.delta_parabolic) 0 ≤ t.p_parabolic :=
    max_le (by linarith) hpp
  simp only [deteriorate]
  split
  · constructor
    · exact hs1
    constructor
    · exact hp1
    constructor
    · linarith
    · linarith
  · refine ⟨hs1, hp1, le_max_right _ _, ?_⟩
    linarith [not_lt.mp (by assumption :
      ¬ 1 < max (t.p_straight - s.delta_straight) 0 + max (t.p_parabolic - s.delta_parabolic) 0
        + max (t.p_flow + max (t.p_parabolic - s.delta_parabolic) 0 - s.delta_flow) 0)]

/-- Concrete ton for the C5 witness. -/
def tonC5 : Ton :=
  { p_straight := 1/2, p_parabolic := 1/4, p_flow := 1/8, interaction_radius := 1,
    parabola_height := 1, flow_distance := 1, substances := [], pickup_rates := [] }

/-- Concrete surfel data for the C5 witness. -/
def surfC5 : SurfelData :=
  { entity_idx := 0, delta_straight := 1/4, delta_parabolic := 0, delta_flow := 1/16,
    substances := [], deposition_rates := [], rules := [] }

/-- Witness for C5 at a concrete ton and surfel. -/
theorem c5_deteriorate_preserves_probability_invariant_witness :
    (0 ≤ tonC5.p_straight ∧ tonC5.p_straight + tonC5.p_parabolic + tonC5.p_flow ≤ 1)
    ∧ (0 ≤ (deteriorate tonC5 surfC5).p_straight
        ∧ 0 ≤ (deteriorate tonC5 surfC5).p_parabolic
        ∧ 0 ≤ (deteriorate tonC5 surfC5).p_flow
        ∧ (deteriorate tonC5 surfC5).p_straight + (deteriorate tonC5 surfC5).p_parabolic
          + (deteriorate tonC5 surfC5).p_flow ≤ 1) :=
  ⟨by norm_num [tonC5],
   c5_deteriorate_preserves_probability_invariant tonC5 surfC5 (by norm_num [tonC5])
     (by norm_num [tonC5]) (by norm_num [tonC5]) (by norm_num [tonC5])
     (by norm_num [surfC5]) (by norm_num [surfC5]) (by norm_num [surfC5])⟩

/-! ## Neighborhood exchange loops and mass accounting (claims C3, C8) -/

/-- The non-settle exchange loop over the selected neighborhood
(src/transport.rs lines 42-46 and src/sim.rs lines 131-135) specialized
to the `Absorb` rule: `absorb` runs against each neighborhood surfel in
order, with the same weight, threading the ton through. The neighborhood
is given directly as the list of selected surfels. -/
def performBounceAbsorb (ton : Ton) (neighborhood : List SurfelData) (count_weight : ℚ) : Ton × List SurfelData :=
  match neighborhood with
  | [] => (ton, [])
  | s :: rest =>
      let head := absorb ton s count_weight
      let tail := performBounceAbsorb head.1 rest count_weight
      (tail.1, head.2 :: tail.2)

/-- The settle exchange loop over the selected neighborhood
(src/transport.rs lines 36-40) specialized to the `DepositAll` rule. -/
def performSettleDepositAll (ton : Ton) (neighborhood : List SurfelData) (count_weight : ℚ) : Ton × List SurfelData :=
  match neighborhood with
  | [] => (ton, [])
  | s :: rest =>
      let head := depositAll ton s count_weight
      let tail := performSettleDepositAll head.1 rest count_weight
      (tail.1, head.2 :: tail.2)

/-- Total amount of substance channel `i` held by a list of surfels. -/
def chanSum (neighborhood : List SurfelData) (i : Nat) : ℚ :=
  (neighborhood.map fun s => s.substances.getD i 0).sum

theorem absorbChan_conserves (w pr t s : ℚ) (ht : 0 ≤ t) (hs : 0 ≤ s)
    (hlo : -1 ≤ w * pr) (hhi : w * pr ≤ 1) :
    (absorbChan w pr t s).1 + (absorbChan w pr t s).2 = t + s
    ∧ 0 ≤ (absorbChan w pr t s).1 ∧ 0 ≤ (absorbChan w pr t s).2 := by
  simp only [absorbChan]
  by_cases hr : 0 ≤ w * pr
  · rw [if_pos hr]
    have hamount0 : 0 ≤ w * pr * s := mul_nonneg hr hs
    have hamount1 : w * pr * s ≤ s := by nlinarith
    rw [max_eq_left (by linarith), max_eq_left (by linarith)]
    exact ⟨by ring, by linarith, by linarith⟩
  · rw [if_neg hr]
    push_neg at hr
    have h1 : -t ≤ w * pr * t := by nlinarith
    have h2 : w * pr * t ≤ 0 := by nlinarith
    rw [max_eq_left (by linarith), max_eq_left (by linarith)]
    exact ⟨by ring, by linarith, by linarith⟩

theorem absorbSub_conserves (w : ℚ) (prs : List ℚ) :
    ∀ (ts ss : List ℚ), (∀ r ∈ prs, -1 ≤ w * r ∧ w * r ≤ 1) →
    (∀ x ∈ ts, 0 ≤ x) → (∀ x ∈ ss, 0 ≤ x) →
    (∀ i, (absorbSub w prs ts ss).1.getD i 0 + (absorbSub w prs ts ss).2.getD i 0
      = ts.getD i 0 + ss.getD i 0)
    ∧ (∀ x ∈ (absorbSub w prs ts ss).1, 0 ≤ x)
    ∧ (∀ x ∈ (absorbSub w prs ts ss).2, 0 ≤ x) := by
  induction prs with
  | nil =>
    intro ts ss _ hts hss
    exact ⟨fun i => by simp [absorbSub], by simpa [absorbSub] using hts,
      by simpa [absorbSub] using hss⟩
  | cons pr prs ih =>
    intro ts ss hpr hts hss
    cases ts with
    | nil => exact ⟨fun i => by simp [absorbSub], by simp [absorbSub],
        by simpa [absorbSub] using hss⟩
    | cons t ts =>
      cases ss with
      | nil => exact ⟨fun i => by simp [absorbSub], by simpa [absorbSub] using hts,
          by simp [absorbSub]⟩
      | cons s ss =>
        have hhead := absorbChan_conserves w pr t s (hts t (by simp)) (hss s (by simp))
          (hpr pr (by simp)).1 (hpr pr (by simp)).2
        have htail := ih ts ss (fun r hr => hpr r (by simp [hr]))
          (fun x hx => hts x (by simp [hx])) (fun x hx => hss x (by simp [hx]))
        refine ⟨fun i => ?_, ?_, ?_⟩
        · cases i with
          | zero => simpa [absorbSub] using hhead.1
          | succ j => simpa [absorbSub] using htail.1 j
        · intro x hx
          simp only [absorbSub, List.mem_cons] at hx
          rcases hx with h | h
          · exact h ▸ hhead.2.1
          · exact htail.2.1 x h
        · intro x hx
          simp only [absorbSub, List.mem_cons] at hx
          rcases hx with h | h
          · exact h ▸ hhead.2.2
          · exact htail.2.2 x h

theorem absorb_conserves (ton : Ton) (s : SurfelData) (w : ℚ)
    (hrates : ∀ r ∈ ton.pickup_rates, -1 ≤ w * r ∧ w * r ≤ 1)
    (hton : ∀ x ∈ ton.substances, 0 ≤ x) (hs : ∀ x ∈ s.substances, 0 ≤ x) :
    (∀ i, (absorb ton s w).1.substances.getD i 0 + (absorb ton s w).2.substances.getD i 0
      = ton.substances.getD i 0 + s.substances.getD i 0)
    ∧ (∀ x ∈ (absorb ton s w).1.substances, 0 ≤ x)
    ∧ (∀ x ∈ (absorb ton s w).2.substances, 0 ≤ x) := by
  have h := absorbSub_conserves w ton.pickup_rates ton.substances s.substances hrates hton hs
  exact ⟨fun i => h.1 i, h.2.1, h.2.2⟩

theorem absorb_keeps_pickup_rates (ton : Ton) (s : SurfelData) (w : ℚ) :
    (absorb ton s w).1.pickup_rates = ton.pickup_rates := rfl

theorem performBounceAbsorb_conserves (w : ℚ) (N : List SurfelData) :
    ∀ (ton : Ton), (∀ r ∈ ton.pickup_rates, -1 ≤ w * r ∧ w * r ≤ 1) →
    (∀ x ∈ ton.substances, 0 ≤ x) → (∀ s ∈ N, ∀ x ∈ s.substances, 0 ≤ x) →
    ∀ i, (performBounceAbsorb ton N w).1.substances.getD i 0
        + chanSum (performBounceAbsorb ton N w).2 i
      = ton.substances.getD i 0 + chanSum N i := by
  induction N with
  | nil => intro ton _ _ _ i; simp [performBounceAbsorb, chanSum]
  | cons s rest ih =>
    intro ton hr hton hN i
    have hhead := absorb_conserves ton s w hr hton (hN s (by simp))
    have hr2 : ∀ r ∈ (absorb ton s w).1.pickup_rates, -1 ≤ w * r ∧ w * r ≤ 1 := by
      rw [absorb_keeps_pickup_rates]; exact hr
    have htail := ih (absorb ton s w).1 hr2 hhead.2.1
      (fun t ht x hx => hN t (by simp [ht]) x hx) i
    simp only [performBounceAbsorb, chanSum, List.map_cons, List.sum_cons] at htail ⊢
    have := hhead.1 i
    linarith

/-- C3 (amended): with `w = 1/|N|`, sequentially absorbing from every
neighborhood surfel conserves, per channel, the total mass held by the
ton and the neighborhood — exactly, in rational arithmetic — whenever
each pickup rate lies in [0, 1], or is negative with `w · rate ≥ −1`. -/
theorem c3_absorb_conserves_mass (ton : Ton) (N : List SurfelData) (i : Nat)
    (hton : ∀ x ∈ ton.substances, 0 ≤ x)
    (hN : ∀ s ∈ N, ∀ x ∈ s.substances, 0 ≤ x)
    (hrates : ∀ r ∈ ton.pickup_rates,
      (0 ≤ r ∧ r ≤ 1) ∨ (r < 0 ∧ -1 ≤ ((N.length : ℚ))⁻¹ * r)) :
    (performBounceAbsorb ton N ((N.length : ℚ))⁻¹).1.substances.getD i 0
      + chanSum (performBounceAbsorb ton N ((N.length : ℚ))⁻¹).2 i
    = ton.substances.getD i 0 + chanSum N i := by
  have hw0 : 0 ≤ ((N.length : ℚ))⁻¹ := by positivity
  have hw1 : ((N.length : ℚ))⁻¹ ≤ 1 := by
    cases N with
    | nil => simp
    | cons s rest =>
      have h1 : (1 : ℚ) ≤ ((s :: rest).length : ℚ) := by
        exact_mod_cast Nat.succ_le_of_lt (List.length_pos.mpr (by simp))
      have hpos : (0 : ℚ) < ((s :: rest).length : ℚ) := by linarith
      have hinv : (((s :: rest).length : ℚ))⁻¹ * ((s :: rest).length : ℚ) = 1 :=
        inv_mul_cancel₀ (ne_of_gt hpos)
      have hmul := mul_le_mul_of_nonneg_left h1 (by positivity :
        (0 : ℚ) ≤ (((s :: rest).length : ℚ))⁻¹)
      rw [mul_one, hinv] at hmul
      exact hmul
  refine performBounceAbsorb_conserves _ N ton (fun r hr => ?_) hton hN i
  rcases hrates r hr with ⟨h0, h1⟩ | ⟨h0, h1⟩
  · have hr1 : ((N.length : ℚ))⁻¹ * r ≤ 1 := by nlinarith
    have hr0 : 0 ≤ ((N.length : ℚ))⁻¹ * r := mul_nonneg hw0 h0
    exact ⟨by linarith, hr1⟩
  · have hr1 : ((N.length : ℚ))⁻¹ * r ≤ 0 := mul_nonpos_of_nonneg_of_nonpos hw0 h0.le
    exact ⟨h1, by linarith⟩

/-- Concrete ton for the C3 counterexample: one substance channel holding
1, pickup rate −2 (negative, with `w · rate = −2 < −1`). -/
def tonC3 : Ton :=
  { p_straight := 0, p_parabolic := 0, p_flow := 0, interaction_radius := 1,
    parabola_height := 1, flow_distance := 1, substances := [1], pickup_rates := [-2] }

/-- Concrete surfel for the C3 counterexample: empty channel. -/
def surfC3 : SurfelData :=
  { entity_idx := 0, delta_straight := 0, delta_parabolic := 0, delta_flow := 0,
    substances := [0], deposition_rates := [0], rules := [] }

/-- C3 counterexample: with pickup rate −2, one neighborhood surfel (so
`w = 1/|N| = 1`), ton substances [1] and surfel substances [0], the
absorb exchange moves 2 onto the surfel but the ton write clamps at zero,
so total channel mass grows from 1 to 2: conservation fails for a
negative pickup rate even in exact arithmetic, refuting the claim's
unconditional negative-rate case. -/
theorem c3_negative_rate_creates_mass :
    (performBounceAbsorb tonC3 [surfC3] ((([surfC3] : List SurfelData).length : ℚ))⁻¹).1.substances.getD 0 0
      + chanSum (performBounceAbsorb tonC3 [surfC3] ((([surfC3] : List SurfelData).length : ℚ))⁻¹).2 0
    ≠ tonC3.substances.getD 0 0 + chanSum [surfC3] 0 := by
  norm_num [performBounceAbsorb, chanSum, absorb, absorbSub, absorbChan, tonC3, surfC3]

/-- Concrete ton for the C3 witness: pickup rate 1 ∈ [0, 1]. -/
def tonC3w : Ton :=
  { p_straight := 0, p_parabolic := 0, p_flow := 0, interaction_radius := 1,
    parabola_height := 1, flow_distance := 1, substances := [1], pickup_rates := [1] }

/-- Concrete surfel for the C3 witness. -/
def surfC3w : SurfelData :=
  { entity_idx := 0, delta_straight := 0, delta_parabolic := 0, delta_flow := 0,
    substances := [1], deposition_rates := [0], rules := [] }

/-- Witness for C3 at a concrete ton and one-surfel neighborhood. -/
theorem c3_absorb_conserves_mass_witness :
    (∀ x ∈ tonC3w.substances, 0 ≤ x)
    ∧ ((performBounceAbsorb tonC3w [surfC3w] ((([surfC3w] : List SurfelData).length : ℚ))⁻¹).1.substances.getD 0 0
        + chanSum (performBounceAbsorb tonC3w [surfC3w] ((([surfC3w] : List SurfelData).length : ℚ))⁻¹).2 0
      = tonC3w.substances.getD 0 0 + chanSum [surfC3w] 0) :=
  ⟨by norm_num [tonC3w],
   c3_absorb_conserves_mass tonC3w [surfC3w] 0
     (by norm_num [tonC3w]) (by norm_num [surfC3w])
     (by norm_num [tonC3w])⟩

theorem performSettleDepositAll_fst (w : ℚ) (N : List SurfelData) (ton : Ton) :
    (performSettleDepositAll ton N w).1 = ton := by
  induction N generalizing ton with
  | nil => rfl
  | cons s rest ih => simpa [performSettleDepositAll, depositAll] using ih ton

theorem depositAllSub_getD (w : ℚ) (ss : List ℚ) :
    ∀ (ts : List ℚ) (i : Nat), i < ss.length → i < ts.length →
    (depositAllSub w ss ts).getD i 0 = ss.getD i 0 + w * ts.getD i 0 := by
  induction ss with
  | nil => intro ts i hi _; simp at hi
  | cons s ss ih =>
    intro ts i hi hit
    cases ts with
    | nil => simp at hit
    | cons t ts =>
      cases i with
      | zero => simp [depositAllSub]
      | succ j =>
        have := ih ts j (by simpa using hi) (by simpa using hit)
        simpa [depositAllSub] using this

theorem performSettleDepositAll_chanSum (w : ℚ) (N : List SurfelData) :
    ∀ (ton : Ton) (i : Nat),
    (∀ s ∈ N, s.substances.length = ton.substances.length) →
    i < ton.substances.length →
    chanSum (performSettleDepositAll ton N w).2 i
      = chanSum N i + (N.length : ℚ) * (w * ton.substances.getD i 0) := by
  induction N with
  | nil => intro ton i _ _; simp [performSettleDepositAll, chanSum]
  | cons s rest ih =>
    intro ton i hlen hi
    have hhead : (depositAll ton s w).2.substances.getD i 0
        = s.substances.getD i 0 + w * ton.substances.getD i 0 := by
      simp only [depositAll]
      exact depositAllSub_getD w s.substances ton.substances i
        (by rw [hlen s (by simp)]; exact hi) hi
    have htail := ih ton i (fun t ht => hlen t (by simp [ht])) hi
    simp only [performSettleDepositAll, chanSum, List.map_cons, List.sum_cons,
      List.length_cons, depositAll] at htail ⊢
    push_cast
    simp only [depositAll] at hhead
    rw [hhead, htail]
    ring

/-- C8: applying the `DepositAll` settle rule with `w = 1/|N|` to every
surfel of a non-empty neighborhood leaves the ton unchanged, and raises
the per-channel neighborhood sum by exactly the ton's channel content
(in exact rational arithmetic). -/
theorem c8_deposit_all_adds_ton_mass (ton : Ton) (N : List SurfelData) (i : Nat)
    (hne : N ≠ [])
    (hlen : ∀ s ∈ N, s.substances.length = ton.substances.length)
    (hi : i < ton.substances.length)
    (_hton : ∀ x ∈ ton.substances, 0 ≤ x)
    (_hN : ∀ s ∈ N, ∀ x ∈ s.substances, 0 ≤ x) :
    (performSettleDepositAll ton N ((N.length : ℚ))⁻¹).1 = ton
    ∧ chanSum (performSettleDepositAll ton N ((N.length : ℚ))⁻¹).2 i
      = chanSum N i + ton.substances.getD i 0 := by
  refine ⟨performSettleDepositAll_fst _ N ton, ?_⟩
  have h := performSettleDepositAll_chanSum ((N.length : ℚ))⁻¹ N ton i hlen hi
  have hlen0 : ((N.length : ℚ)) ≠ 0 := by
    have : N.length ≠ 0 := fun h0 => hne (List.length_eq_zero.mp h0)
    exact_mod_cast this
  rw [h, ← mul_assoc, mul_inv_cancel₀ hlen0, one_mul]

/-- Concrete ton for the C8 witness: one channel holding 2. -/
def tonC8 : Ton :=
  { p_straight := 0, p_parabolic := 0, p_flow := 0, interaction_radius := 1,
    parabola_height := 1, flow_distance := 1, substances := [2], pickup_rates := [0] }

/-- Concrete surfel for the C8 witness (used twice in the neighborhood). -/
def surfC8 : SurfelData :=
  { entity_idx := 0, delta_straight := 0, delta_parabolic := 0, delta_flow := 0,
    substances := [1], deposition_rates := [0], rules := [] }

/-- Witness for C8 at a two-surfel neighborhood (w = 1/2). -/
theorem c8_deposit_all_adds_ton_mass_witness :
    (([surfC8, surfC8] : List SurfelData) ≠ [] ∧ 0 < tonC8.substances.length)
    ∧ ((performSettleDepositAll tonC8 [surfC8, surfC8] ((([surfC8, surfC8] : List SurfelData).length : ℚ))⁻¹).1 = tonC8
      ∧ chanSum (performSettleDepositAll tonC8 [surfC8, surfC8] ((([surfC8, surfC8] : List SurfelData).length : ℚ))⁻¹).2 0
        = chanSum [surfC8, surfC8] 0 + tonC8.substances.getD 0 0) :=
  ⟨⟨by simp, by norm_num [tonC8]⟩,
   c8_deposit_all_adds_ton_mass tonC8 [surfC8, surfC8] 0
     (by simp) (by norm_num [surfC8, tonC8]) (by norm_num [tonC8])
     (by norm_num [tonC8]) (by norm_num [surfC8])⟩

/-! ## Claim C4: reachable states and non-negativity of concentrations -/

/-- `Simulation::perform_rule` from src/sim.rs lines 222-234: a surfel
rule transforms a substance vector in place; both rule variants clamp
every write at zero. The `Transfer` target read happens after the source
write, as in the source. Out-of-range indices are read as 0 and written
as no-ops (the Rust code would panic there). -/
def performRule (substances : List ℚ) (rule : SurfelRule) : List ℚ :=
  match rule with
  | .Deteriorate substance_idx factor =>
      substances.set substance_idx (max ((1 + factor) * substances.getD substance_idx 0) 0)
  | .Transfer source_substance_idx target_substance_idx factor =>
      let transport_amount := factor * substances.getD source_substance_idx 0
      let substances := substances.set source_substance_idx
        (max (substances.getD source_substance_idx 0 - transport_amount) 0)
      substances.set target_substance_idx
        (max (substances.getD target_substance_idx 0 + transport_amount) 0)

/-- The five transport rule types of src/transport.rs. -/
inductive TransportRuleTag where
  | Absorb
  | Deposit
  | AbsorbThenDeposit
  | DepositAll
  | Differential
deriving DecidableEq, Repr

/-- Dispatch of `Rule::transport` over the five rule implementations of
src/transport.rs. -/
def applyTransportRule : TransportRuleTag → Ton → SurfelData → ℚ → Ton × SurfelData
  | .Absorb, t, s, w => absorb t s w
  | .Deposit, t, s, w => Transport.deposit t s w
  | .AbsorbThenDeposit, t, s, w => absorbThenDeposit t s w
  | .DepositAll, t, s, w => depositAll t s w
  | .Differential, t, s, w => differential t s w

/-- The mutable simulation state: the live tons and the surface's surfel
data vectors (the only long-lived mutable state per the spec). -/
structure SimState where
  tons : List Ton
  samples : List SurfelData
deriving DecidableEq, Repr

/-- One observable write to the simulation state: a transport-rule
application of one ton against one surfel (the weight is
`(neighborhood_size as f32).recip()` as in `Transport::perform` line 32),
or a surfel-rule application to one surfel (the pointwise loops of
`Simulation::perform_rules`). -/
inductive SimEvent where
  | transport (rule : TransportRuleTag) (ton_idx surfel_idx : Nat) (neighborhood_size : Nat)
  | surfel_rule (rule : SurfelRule) (surfel_idx : Nat)
deriving DecidableEq, Repr

/-- Whether an event applies the `Differential` transport rule. -/
def SimEvent.usesDifferential : SimEvent → Bool
  | .transport .Differential _ _ _ => true
  | _ => false

/-- Applies one event to the state; events with out-of-range indexes do
nothing (the Rust code cannot produce them). -/
def stepEvent (st : SimState) : SimEvent → SimState
  | .transport rule ton_idx surfel_idx neighborhood_size =>
      match st.tons.get? ton_idx, st.samples.get? surfel_idx with
      | some t, some s =>
          let res := applyTransportRule rule t s (((neighborhood_size : ℚ))⁻¹)
          { tons := st.tons.set ton_idx res.1, samples := st.samples.set surfel_idx res.2 }
      | _, _ => st
  | .surfel_rule rule surfel_idx =>
      match st.samples.get? surfel_idx with
      | some s =>
          let s2 := { s with substances := performRule s.substances rule }
          { st with samples := st.samples.set surfel_idx s2 }
      | none => st

/-- A state reachable by a sequence of transport-rule and surfel-rule
applications. -/
def runEvents (st : SimState) (evs : List SimEvent) : SimState :=
  evs.foldl stepEvent st

/-- Every ton of the state carries only non-negative substance amounts. -/
def TonsNonneg (tons : List Ton) : Prop :=
  ∀ t ∈ tons, ∀ x ∈ t.substances, 0 ≤ x

/-- Every surfel of the state carries only non-negative concentrations. -/
def SamplesNonneg (samples : List SurfelData) : Prop :=
  ∀ s ∈ samples, ∀ x ∈ s.substances, 0 ≤ x

/-- Concrete ton for the C4 counterexample: pickup rate 2. -/
def tonC4 : Ton :=
  { p_straight := 0, p_parabolic := 0, p_flow := 0, interaction_radius := 1,
    parabola_height := 1, flow_distance := 1, substances := [0], pickup_rates := [2] }

/-- Concrete surfel for the C4 counterexample: concentration 1,
deposition rate 0. -/
def surfC4 : SurfelData :=
  { entity_idx := 0, delta_straight := 0, delta_parabolic := 0, delta_flow := 0,
    substances := [1], deposition_rates := [0], rules := [] }

/-- Initial state for the C4 counterexample: non-negative everywhere. -/
def stC4 : SimState := { tons := [tonC4], samples := [surfC4] }

/-- C4 counterexample: starting from non-negative ton substances [0]
(pickup rate 2) and surfel substances [1] (deposition rate 0), a single
`Differential` application with neighborhood size 1 has rate
w·(deposition − pickup) = −2, moves `surfel · 2 = 2` off the surfel
without any clamp, and leaves the surfel concentration at −1 < 0: the
non-negativity invariant does not survive arbitrary-magnitude rates. -/
theorem c4_differential_breaks_nonneg :
    ((runEvents stC4 [SimEvent.transport TransportRuleTag.Differential 0 0 1]).samples.getD 0 default).substances.getD 0 0 < 0 := by
  norm_num [runEvents, stepEvent, stC4, tonC4, surfC4, applyTransportRule,
    differential, differentialSub, differentialChan, List.foldl]

theorem absorbChan_nonneg (w pr t s : ℚ) :
    0 ≤ (absorbChan w pr t s).1 ∧ 0 ≤ (absorbChan w pr t s).2 := by
  simp only [absorbChan]
  exact ⟨le_max_right _ _, le_max_right _ _⟩

theorem absorbSub_nonneg (w : ℚ) (prs : List ℚ) :
    ∀ (ts ss : List ℚ), (∀ x ∈ ts, 0 ≤ x) → (∀ x ∈ ss, 0 ≤ x) →
    (∀ x ∈ (absorbSub w prs ts ss).1, 0 ≤ x) ∧ (∀ x ∈ (absorbSub w prs ts ss).2, 0 ≤ x) := by
  induction prs with
  | nil =>
    intro ts ss hts hss
    exact ⟨by simpa [absorbSub] using hts, by simpa [absorbSub] using hss⟩
  | cons pr prs ih =>
    intro ts ss hts hss
    cases ts with
    | nil => exact ⟨by simp [absorbSub], by simpa [absorbSub] using hss⟩
    | cons t ts =>
      cases ss with
      | nil => exact ⟨by simpa [absorbSub] using hts, by simp [absorbSub]⟩
      | cons s ss =>
        have htail := ih ts ss (fun x hx => hts x (by simp [hx]))
          (fun x hx => hss x (by simp [hx]))
        constructor
        · intro x hx
          simp only [absorbSub, List.mem_cons] at hx
          rcases hx with h | h
          · exact h ▸ (absorbChan_nonneg w pr t s).1
          · exact htail.1 x h
        · intro x hx
          simp only [absorbSub, List.mem_cons] at hx
          rcases hx with h | h
          · exact h ▸ (absorbChan_nonneg w pr t s).2
          · exact htail.2 x h

theorem transportDepositSub_nonneg (w : ℚ) (drs : List ℚ) :
    ∀ (ts ss : List ℚ), (∀ x ∈ ts, 0 ≤ x) → (∀ x ∈ ss, 0 ≤ x) →
    (∀ x ∈ (Transport.depositSub w drs ts ss).1, 0 ≤ x)
    ∧ (∀ x ∈ (Transport.depositSub w drs ts ss).2, 0 ≤ x) := by
  induction drs with
  | nil =>
    intro ts ss hts hss
    exact ⟨by simpa [Transport.depositSub] using hts, by simpa [Transport.depositSub] using hss⟩
  | cons dr drs ih =>
    intro ts ss hts hss
    cases ts with
    | nil => exact ⟨by simp [Transport.depositSub],
        by simpa [Transport.depositSub] using hss⟩
    | cons t ts =>
      cases ss with
      | nil => exact ⟨by simpa [Transport.depositSub] using hts,
          by simp [Transport.depositSub]⟩
      | cons s ss =>
        have htail := ih ts ss (fun x hx => hts x (by simp [hx]))
          (fun x hx => hss x (by simp [hx]))
        constructor
        · intro x hx
          simp only [Transport.depositSub, List.mem_cons] at hx
          rcases hx with h | h
          · exact h ▸ le_max_right _ _
          · exact htail.1 x h
        · intro x hx
          simp only [Transport.depositSub, List.mem_cons] at hx
          rcases hx with h | h
          · exact h ▸ le_max_right _ _
          · exact htail.2 x h

theorem depositAllSub_nonneg (w : ℚ) (hw : 0 ≤ w) (ss : List ℚ) :
    ∀ (ts : List ℚ), (∀ x ∈ ss, 0 ≤ x) → (∀ x ∈ ts, 0 ≤ x) →
    ∀ x ∈ depositAllSub w ss ts, 0 ≤ x := by
  induction ss with
  | nil => intro ts _ _ x hx; simp [depositAllSub] at hx
  | cons s ss ih =>
    intro ts hss hts x hx
    cases ts with
    | nil => simpa [depositAllSub] using hss x (by simpa [depositAllSub] using hx)
    | cons t ts =>
      simp only [depositAllSub, List.mem_cons] at hx
      rcases hx with h | h
      · have h1 : 0 ≤ s := hss s (by simp)
        have h2 : 0 ≤ w * t := mul_nonneg hw (hts t (by simp))
        subst h; linarith
      · exact ih ts (fun x hx => hss x (by simp [hx])) (fun x hx => hts x (by simp [hx])) x h

theorem performRule_nonneg (substances : List ℚ) (rule : SurfelRule)
    (h : ∀ x ∈ substances, 0 ≤ x) : ∀ x ∈ performRule substances rule, 0 ≤ x := by
  cases rule with
  | Deteriorate idx factor =>
    intro x hx
    rcases List.mem_or_eq_of_mem_set hx with hmem | heq
    · exact h x hmem
    · subst heq; exact le_max_right _ _
  | Transfer src tgt factor =>
    intro x hx
    simp only [performRule] at hx
    rcases List.mem_or_eq_of_mem_set hx with hmem | heq
    · rcases List.mem_or_eq_of_mem_set hmem with hmem2 | heq2
      · exact h x hmem2
      · subst heq2; exact le_max_right _ _
    · subst heq; exact le_max_right _ _

theorem applyTransportRule_nonneg (tag : TransportRuleTag) (t : Ton) (s : SurfelData)
    (w : ℚ) (hw : 0 ≤ w)
    (hdiff : tag ≠ TransportRuleTag.Differential)
    (ht : ∀ x ∈ t.substances, 0 ≤ x) (hs : ∀ x ∈ s.substances, 0 ≤ x) :
    (∀ x ∈ (applyTransportRule tag t s w).1.substances, 0 ≤ x)
    ∧ (∀ x ∈ (applyTransportRule tag t s w).2.substances, 0 ≤ x) := by
  cases tag with
  | Absorb =>
    simpa [applyTransportRule, absorb] using
      absorbSub_nonneg w t.pickup_rates t.substances s.substances ht hs
  | Deposit =>
    simpa [applyTransportRule, Transport.deposit] using
      transportDepositSub_nonneg w s.deposition_rates t.substances s.substances ht hs
  | AbsorbThenDeposit =>
    have h1 := absorbSub_nonneg w t.pickup_rates t.substances s.substances ht hs
    simpa [applyTransportRule, absorbThenDeposit, absorb, Transport.deposit] using
      transportDepositSub_nonneg w s.deposition_rates _ _ h1.1 h1.2
  | DepositAll =>
    exact ⟨by simpa [applyTransportRule, depositAll] using ht,
      by simpa [applyTransportRule, depositAll] using
        depositAllSub_nonneg w hw s.substances t.substances hs ht⟩
  | Differential => exact absurd rfl hdiff

theorem stepEvent_nonneg (st : SimState) (ev : SimEvent)
    (hdiff : ev.usesDifferential = false)
    (htons : TonsNonneg st.tons) (hsamples : SamplesNonneg st.samples) :
    TonsNonneg (stepEvent st ev).tons ∧ SamplesNonneg (stepEvent st ev).samples := by
  cases ev with
  | transport rule ton_idx surfel_idx neighborhood_size =>
    have hrule : rule ≠ TransportRuleTag.Differential := by
      intro h; subst h; simp [SimEvent.usesDifferential] at hdiff
    simp only [stepEvent]
    cases hget : st.tons.get? ton_idx with
    | none => exact ⟨htons, hsamples⟩
    | some t =>
      cases hget2 : st.samples.get? surfel_idx with
      | none => exact ⟨htons, hsamples⟩
      | some s =>
        have ht : ∀ x ∈ t.substances, 0 ≤ x := htons t (List.get?_mem hget)
        have hs : ∀ x ∈ s.substances, 0 ≤ x := hsamples s (List.get?_mem hget2)
        have happ := applyTransportRule_nonneg rule t s (((neighborhood_size : ℚ))⁻¹)
          (by positivity) hrule ht hs
        constructor
        · intro t2 ht2
          rcases List.mem_or_eq_of_mem_set ht2 with hmem | heq
          · exact htons t2 hmem
          · exact heq ▸ happ.1
        · intro s2 hs2
          rcases List.mem_or_eq_of_mem_set hs2 with hmem | heq
          · exact hsamples s2 hmem
          · exact heq ▸ happ.2
  | surfel_rule rule surfel_idx =>
    simp only [stepEvent]
    cases hget : st.samples.get? surfel_idx with
    | none => exact ⟨htons, hsamples⟩
    | some s =>
      have hs : ∀ x ∈ s.substances, 0 ≤ x := hsamples s (List.get?_mem hget)
      refine ⟨htons, ?_⟩
      intro s2 hs2
      rcases List.mem_or_eq_of_mem_set hs2 with hmem | heq
      · exact hsamples s2 hmem
      · exact heq ▸ performRule_nonneg s.substances rule hs

/-- C4 (amended): starting from non-negative ton and surfel substances,
every state reachable by Absorb, Deposit, AbsorbThenDeposit and
DepositAll transport applications (arbitrary rates and neighborhood
sizes) and surfel-rule applications (arbitrary factors) keeps every
surfel concentration — and every ton substance — non-negative; the
unclamped `Differential` rule is excluded, since it can break the
invariant. -/
theorem c4_nonneg_invariant_without_differential (st : SimState) (evs : List SimEvent)
    (hdiff : ∀ ev ∈ evs, ev.usesDifferential = false)
    (htons : TonsNonneg st.tons) (hsamples : SamplesNonneg st.samples) :
    TonsNonneg (runEvents st evs).tons ∧ SamplesNonneg (runEvents st evs).samples := by
  induction evs generalizing st with
  | nil => exact ⟨htons, hsamples⟩
  | cons ev evs ih =>
    have hstep := stepEvent_nonneg st ev (hdiff ev (by simp)) htons hsamples
    simpa [runEvents, List.foldl] using
      ih (stepEvent st ev) (fun e he => hdiff e (by simp [he])) hstep.1 hstep.2

/-- Witness for C4 at a concrete state and a concrete event list covering
all four clamped transport rules and both surfel rules. -/
theorem c4_nonneg_invariant_without_differential_witness :
    ((∀ ev ∈ [SimEvent.transport TransportRuleTag.Absorb 0 0 1,
        SimEvent.transport TransportRuleTag.Deposit 0 0 1,
        SimEvent.transport TransportRuleTag.AbsorbThenDeposit 0 0 1,
        SimEvent.transport TransportRuleTag.DepositAll 0 0 1,
        SimEvent.surfel_rule (SurfelRule.Deteriorate 0 (-1/2)) 0,
        SimEvent.surfel_rule (SurfelRule.Transfer 0 0 (1/2)) 0],
        ev.usesDifferential = false)
      ∧ TonsNonneg stC4.tons ∧ SamplesNonneg stC4.samples)
    ∧ (TonsNonneg (runEvents stC4 [SimEvent.transport TransportRuleTag.Absorb 0 0 1,
        SimEvent.transport TransportRuleTag.Deposit 0 0 1,
        SimEvent.transport TransportRuleTag.AbsorbThenDeposit 0 0 1,
        SimEvent.transport TransportRuleTag.DepositAll 0 0 1,
        SimEvent.surfel_rule (SurfelRule.Deteriorate 0 (-1/2)) 0,
        SimEvent.surfel_rule (SurfelRule.Transfer 0 0 (1/2)) 0]).tons
      ∧ SamplesNonneg (runEvents stC4 [SimEvent.transport TransportRuleTag.Absorb 0 0 1,
        SimEvent.transport TransportRuleTag.Deposit 0 0 1,
        SimEvent.transport TransportRuleTag.AbsorbThenDeposit 0 0 1,
        SimEvent.transport TransportRuleTag.DepositAll 0 0 1,
        SimEvent.surfel_rule (SurfelRule.Deteriorate 0 (-1/2)) 0,
        SimEvent.surfel_rule (SurfelRule.Transfer 0 0 (1/2)) 0]).samples) :=
  ⟨⟨by intro ev hev; fin_cases hev <;> rfl,
    by intro t ht x hx; fin_cases ht; simp [tonC4] at hx; norm_num [hx],
    by intro s hs x hx; fin_cases hs; simp [surfC4] at hx; norm_num [hx]⟩,
   c4_nonneg_invariant_without_differential stC4 _
     (by intro ev hev; fin_cases hev <;> rfl)
     (by intro t ht x hx; fin_cases ht; simp [tonC4] at hx; norm_num [hx])
     (by intro s hs x hx; fin_cases hs; simp [surfC4] at hx; norm_num [hx])⟩

/-! ## Interaction selection (claim C7) and the deterioration stage (claim C6) -/

/-- `Simulation::select_motion_type` from src/sim.rs lines 336-351, with
the thread-local uniform draw `random ∈ [0, 1)` passed explicitly. -/
def selectMotionType (random : ℚ) (ton : Ton) : MotionType :=
  if random < ton.p_straight then MotionType.Straight
  else if random < ton.p_straight + ton.p_parabolic then MotionType.Parabolic
  else if random < ton.p_straight + ton.p_parabolic + ton.p_flow then MotionType.Flow
  else MotionType.Settled

/-- `(surfel_idxs.len() as f32).recip()` from src/sim.rs lines 121 and 266. -/
def countWeight (surfel_idxs : List Nat) : ℚ := ((surfel_idxs.length : ℚ))⁻¹

/-- Modelled from the spec: `surf::Surface::find_within_sphere_indexes`
(spec section 4.3; the surface crate is an external collaborator):
indices of all surfels within `radius` of `center`, compared through
squared distances. -/
def findWithinSphereIndexes (samples : List Surfel) (center : V3) (radius : ℚ) : List Nat :=
  (List.range samples.length).filter fun i =>
    V3.distSq (samples.getD i default).position center ≤ radius * radius

/-- Modelled from the spec: `surf::Surface::nearest_idx` (spec section
4.3): the index of a surfel nearest to `point` (first such index on ties). -/
def nearestIdx (samples : List Surfel) (point : V3) : Nat :=
  (List.range samples.length).foldl
    (fun best i =>
      if V3.distSq (samples.getD i default).position point
          < V3.distSq (samples.getD best default).position point then i else best) 0

/-- The first half of `select_interaction_idxs_and_next_motion_type`
(src/sim.rs lines 159-174): the within-sphere query followed by the
retain that throws out surfels whose normals are rotated by more than 90
degrees against the hit triangle's normal. -/
def frontFacingWithinSphere (samples : List Surfel) (h : HitRec) : List Nat :=
  (findWithinSphereIndexes samples h.intersection_point h.ton.interaction_radius).filter
    fun i => 0 < V3.dot h.triangle.normal ((samples.getD i default)).normal

/-- `Simulation::select_interaction_idxs_and_next_motion_type` from
src/sim.rs lines 158-183: the filtered within-sphere neighborhood, with
the nearest surfel pushed as fallback when it is empty (the source also
logs a warning there), paired with the freshly sampled next motion type. -/
def selectInteractionIdxsAndNextMotionType (random : ℚ) (h : HitRec) (samples : List Surfel) : MotionType × List Nat :=
  let interaction_info := frontFacingWithinSphere samples h
  let interaction_info :=
    if interaction_info.length = 0 then [nearestIdx samples h.intersection_point]
    else interaction_info
  (selectMotionType random h.ton, interaction_info)

/-- C7: over a non-empty surface, the interaction neighborhood is exactly
the set of surfel indices within the ton's interaction radius of the
intersection point whose normals face the hit triangle (positive dot
product); when that filtered set is empty it is replaced by the single
nearest surfel index (a warning, not modelled, is logged then); hence the
neighborhood is never empty and the count weight 1/|N| is positive. -/
theorem c7_interaction_neighborhood_characterization (random : ℚ) (h : HitRec)
    (s0 : Surfel) (rest : List Surfel) :
    (∀ i, i ∈ frontFacingWithinSphere (s0 :: rest) h ↔
        (i < (s0 :: rest).length
          ∧ V3.distSq (((s0 :: rest).getD i default)).position h.intersection_point
              ≤ h.ton.interaction_radius * h.ton.interaction_radius
          ∧ 0 < V3.dot h.triangle.normal (((s0 :: rest).getD i default)).normal))
    ∧ (selectInteractionIdxsAndNextMotionType random h (s0 :: rest)).2
        = (if frontFacingWithinSphere (s0 :: rest) h = []
            then [nearestIdx (s0 :: rest) h.intersection_point]
            else frontFacingWithinSphere (s0 :: rest) h)
    ∧ (selectInteractionIdxsAndNextMotionType random h (s0 :: rest)).2 ≠ []
    ∧ 0 < countWeight (selectInteractionIdxsAndNextMotionType random h (s0 :: rest)).2 := by
  refine ⟨?_, ?_, ?_, ?_⟩
  · intro i
    simp only [frontFacingWithinSphere, findWithinSphereIndexes, List.mem_filter,
      List.mem_range, decide_eq_true_eq]
    tauto
  · simp only [selectInteractionIdxsAndNextMotionType, List.length_eq_zero]
  · simp only [selectInteractionIdxsAndNextMotionType, List.length_eq_zero]
    split
    · simp
    · assumption
  · have hne : (selectInteractionIdxsAndNextMotionType random h (s0 :: rest)).2 ≠ [] := by
      simp only [selectInteractionIdxsAndNextMotionType, List.length_eq_zero]
      split
      · simp
      · assumption
    have hlen : 0 < ((selectInteractionIdxsAndNextMotionType random h (s0 :: rest)).2.length : ℚ) := by
      exact_mod_cast List.length_pos.mpr hne
    exact inv_pos.mpr hlen

/-- `Simulation::deteriorate_fast` from src/sim.rs lines 185-187:
deteriorates the hit's ton against the data of the FIRST surfel of the
selected neighborhood (`surfel_idxs[0]`). -/
def deteriorateFast (h : HitRec) (surfel_idxs : List Nat) (samples : List Surfel) : HitRec :=
  { h with ton := deteriorate h.ton ((samples.getD (surfel_idxs.headD 0) default)).data }

/-- The deterioration stage of `Simulation::trace_deepen` (src/sim.rs
lines 112-115): `deteriorate_fast` runs on EVERY hit of the layer, zipped
with its interaction info, with no filter on the selected motion type. -/
def deteriorateStage (samples : List Surfel) (hits : List HitRec) (interaction_info : List (MotionType × List Nat)) : List HitRec :=
  (hits.zip interaction_info).map fun hi => deteriorateFast hi.1 hi.2.2 samples

/-- The deterioration update as the amended claim words it: probabilities
clamped from below at zero after subtracting the surfel's deltas, the
flow probability gaining the already-updated parabolic probability, and
then set to 1 − p_straight − p_parabolic (reduction by the excess)
whenever the three would sum to more than 1. -/
def deterioratedSpec (ton : Ton) (surfel : SurfelData) : Ton :=
  let ps := max 0 (ton.p_straight - surfel.delta_straight)
  let pp := max 0 (ton.p_parabolic - surfel.delta_parabolic)
  let pfRaw := max 0 (ton.p_flow + pp - surfel.delta_flow)
  let pf := if 1 < ps + pp + pfRaw then 1 - ps - pp else pfRaw
  { ton with p_straight := ps, p_parabolic := pp, p_flow := pf }

theorem deteriorate_eq_spec (t : Ton) (s : SurfelData) :
    deteriorate t s = deterioratedSpec t s := by
  simp only [deteriorate, deterioratedSpec, max_comm]
  split
  · simp only [Ton.mk.injEq, and_true, true_and]
    ring
  · rfl

/-- C6 (amended): in every bounce layer, EVERY particle — also those whose
sampled next motion is Settled — is deteriorated against the first surfel
of its selected neighborhood, by the clamped updates of the claim
followed by the excess reduction of the flow probability whenever the
three probabilities would sum to more than 1. -/
theorem c6_every_hit_deteriorated_with_first_surfel (samples : List Surfel)
    (hits : List HitRec) (interaction_info : List (MotionType × List Nat)) :
    deteriorateStage samples hits interaction_info
      = (hits.zip interaction_info).map fun hi =>
          { hi.1 with
              ton := deterioratedSpec hi.1.ton ((samples.getD (hi.2.2.headD 0) default)).data } := by
  simp only [deteriorateStage, deteriorateFast, deteriorate_eq_spec]

/-- Concrete ton for the C6 counterexample, first part: it will settle. -/
def tonC6a : Ton :=
  { p_straight := 1/2, p_parabolic := 0, p_flow := 0, interaction_radius := 1,
    parabola_height := 1, flow_distance := 1, substances := [], pickup_rates := [] }

/-- Concrete surfel data for the C6 counterexample, first part. -/
def surfC6a : SurfelData :=
  { entity_idx := 0, delta_straight := 1/2, delta_parabolic := 0, delta_flow := 0,
    substances := [], deposition_rates := [], rules := [] }

/-- Concrete surfel for the C6 counterexample, first part. -/
def surfelC6 : Surfel :=
  { position := { x := 0, y := 0, z := 0 }, normal := { x := 0, y := 1, z := 0 },
    data := surfC6a }

/-- Concrete hit for the C6 counterexample, first part. -/
def hitC6 : HitRec :=
  { ton := tonC6a, intersection_point := { x := 0, y := 0, z := 0 },
    incoming_direction := { x := 0, y := -1, z := 0 },
    triangle := { normal := { x := 0, y := 1, z := 0 } } }

/-- Concrete ton for the C6 counterexample, second part: excess case. -/
def tonC6b : Ton :=
  { p_straight := 0, p_parabolic := 1/2, p_flow := 1/2, interaction_radius := 1,
    parabola_height := 1, flow_distance := 1, substances := [], pickup_rates := [] }

/-- Concrete surfel data for the C6 counterexample, second part: all
deltas zero. -/
def surfC6b : SurfelData :=
  { entity_idx := 0, delta_straight := 0, delta_parabolic := 0, delta_flow := 0,
    substances := [], deposition_rates := [], rules := [] }

/-- C6 counterexample: (a) a particle whose selected motion type is
Settled is nonetheless deteriorated by the layer's deterioration stage
(its ton changes), contradicting "exactly the non-settled particles are
deteriorated"; (b) with p_parabolic = p_flow = 1/2 and zero deltas, the
final flow probability is 1/2, not the claimed
max(0, p_flow + p_parabolic − delta_flow) = 1 — the claim omits the
excess reduction. -/
theorem c6_settled_deteriorated_and_excess_missing :
    deteriorateStage [surfelC6] [hitC6] [(MotionType.Settled, [0])] ≠ [hitC6]
    ∧ (deteriorate tonC6b surfC6b).p_flow
        ≠ max 0 (tonC6b.p_flow + (deteriorate tonC6b surfC6b).p_parabolic - surfC6b.delta_flow) := by
  constructor
  · norm_num [deteriorateStage, deteriorateFast, deteriorate, hitC6, surfelC6, surfC6a,
      tonC6a, HitRec.mk.injEq, Ton.mk.injEq]
  · norm_num [deteriorate, tonC6b, surfC6b]

/-! ## The bounce layer and the run_fast loop (claims C1, C10) -/

/-- Writes back a surfel's data vector, `surf.samples[idx].data_mut()`
style; out-of-range writes are no-ops (the Rust code cannot produce
them, indices come from the spatial queries). -/
def setData (samples : List Surfel) (idx : Nat) (d : SurfelData) : List Surfel :=
  samples.set idx { samples.getD idx default with data := d }

/-- Substance exchange for one hit (the match of src/sim.rs lines
123-136): a Settled motion deposits to every selected surfel
(`Simulation::deposit`, ton untouched); any other motion absorbs from
every selected surfel, threading the ton. -/
def exchangeHit (samples : List Surfel) (ton : Ton) (next_motion_type : MotionType) (surfel_idxs : List Nat) : List Surfel × Ton :=
  let count_weight := countWeight surfel_idxs
  match next_motion_type with
  | MotionType.Settled =>
      (surfel_idxs.foldl
        (fun samples idx => setData samples idx (Sim.deposit ton ((samples.getD idx default)).data count_weight))
        samples, ton)
  | _ =>
      surfel_idxs.foldl
        (fun acc idx =>
          let res := absorb acc.2 ((acc.1.getD idx default)).data count_weight
          (setData acc.1 idx res.2, res.1))
        (samples, ton)

/-- The sequential exchange phase of `trace_deepen` (src/sim.rs lines
117-137): hits are processed in order, each against its interaction
info, mutating the surface and the hit's ton. -/
def exchangeStage (samples : List Surfel) : List HitRec → List (MotionType × List Nat) → List Surfel × List HitRec
  | h :: hs, info :: infos =>
      let res := exchangeHit samples h.ton info.1 info.2
      let tail := exchangeStage res.1 hs infos
      (tail.1, { h with ton := res.2 } :: tail.2)
  | hs, _ => (samples, hs)

/-- Abstracts the tracer-and-sampling part of `Simulation::next_hit`
(src/sim.rs lines 293-334): for the three moving motion types the
outcome (intersection point, incoming direction, triangle) depends on
the octree and on fresh rng draws, so it is an oracle indexed by the
hit's position in the layer. -/
def TraceOracle : Type :=
  Nat → Ton → V3 → V3 → Tri → MotionType → Option (V3 × V3 × Tri)

/-- `Simulation::next_hit`: the `Settled` arm returns `None`
structurally; the moving arms query the oracle. -/
def nextHit (oracle : TraceOracle) (i : Nat) (ton : Ton) (intersection_point incoming_direction : V3) (triangle : Tri) (motion_type : MotionType) : Option (V3 × V3 × Tri) :=
  match motion_type with
  | MotionType.Settled => none
  | _ => oracle i ton intersection_point incoming_direction triangle motion_type

/-- The final phase of `trace_deepen` (src/sim.rs lines 139-155): each
hit moves to its next hit point if any; settled tons and tons whose next
trace misses are filtered out. -/
def nextStage (oracle : TraceOracle) (hits : List HitRec) (interaction_info : List (MotionType × List Nat)) : List HitRec :=
  (hits.zip interaction_info).enum.filterMap fun x =>
    (nextHit oracle x.1 x.2.1.ton x.2.1.intersection_point x.2.1.incoming_direction
        x.2.1.triangle x.2.2.1).map fun g =>
      { ton := x.2.1.ton, intersection_point := g.1, incoming_direction := g.2.1, triangle := g.2.2 }

/-- `Simulation::trace_deepen` from src/sim.rs lines 102-156, with the
per-hit rng draws and the tracer oracle explicit: interaction selection,
deterioration of every hit, sequential substance exchange, then the move
to the next hits. -/
def traceDeepen (rnd : Nat → ℚ) (oracle : TraceOracle) (samples : List Surfel) (hits : List HitRec) : List Surfel × List HitRec :=
  let interaction_info := hits.enum.map fun ih =>
    selectInteractionIdxsAndNextMotionType (rnd ih.1) ih.2 samples
  let hits2 := deteriorateStage samples hits interaction_info
  let res := exchangeStage samples hits2 interaction_info
  (res.1, nextStage oracle res.2 interaction_info)

/-- The bounce loop of `Simulation::run_fast` (src/sim.rs lines 84-87):
`while !hits.is_empty() { hits = self.trace_deepen(hits) }`, given as a
fuel-indexed unfolding. Returns the final state and the number of loop
iterations actually executed within the fuel (the loop itself has no
iteration bound; fuel exhaustion models observing a still-running loop). -/
def bounceLoop (rnd : Nat → ℚ) (oracle : TraceOracle) : Nat → List Surfel × List HitRec → (List Surfel × List HitRec) × Nat
  | 0, st => (st, 0)
  | fuel + 1, st =>
      if st.2.isEmpty then (st, 0)
      else
        let next := traceDeepen rnd oracle st.1 st.2
        let rest := bounceLoop rnd oracle fuel next
        (rest.1, rest.2 + 1)

/-- Concrete ton for the C1 counterexample: it always chooses Straight
(p_straight = 1) and carries no substances, so nothing decays. -/
def tonC1 : Ton :=
  { p_straight := 1, p_parabolic := 0, p_flow := 0, interaction_radius := 1,
    parabola_height := 1, flow_distance := 1, substances := [], pickup_rates := [] }

/-- Concrete surfel data for the C1 counterexample: all deltas zero. -/
def surfC1data : SurfelData :=
  { entity_idx := 0, delta_straight := 0, delta_parabolic := 0, delta_flow := 0,
    substances := [], deposition_rates := [], rules := [] }

/-- Concrete surfel for the C1 counterexample, at the hit point. -/
def surfelC1 : Surfel :=
  { position := { x := 0, y := 0, z := 0 }, normal := { x := 0, y := 1, z := 0 },
    data := surfC1data }

/-- Concrete hit for the C1 counterexample. -/
def hitC1 : HitRec :=
  { ton := tonC1, intersection_point := { x := 0, y := 0, z := 0 },
    incoming_direction := { x := 0, y := -1, z := 0 },
    triangle := { normal := { x := 0, y := 1, z := 0 } } }

/-- Rng oracle for the C1 counterexample: every draw is 0, selecting
Straight for a ton with p_straight = 1. -/
def rndC1 : Nat → ℚ := fun _ => 0

/-- Trace oracle for the C1 counterexample: every straight bounce lands
back on the same point of the same triangle (a ton caught between
surfaces; realizable behavior of the octree tracer). -/
def oracleC1 : TraceOracle := fun _ _ _ _ _ _ =>
  some ({ x := 0, y := 0, z := 0 }, { x := 0, y := -1, z := 0 }, { normal := { x := 0, y := 1, z := 0 } })

theorem traceDeepenC1_fixpoint :
    traceDeepen rndC1 oracleC1 [surfelC1] [hitC1] = ([surfelC1], [hitC1]) := by
  norm_num [traceDeepen, deteriorateStage, deteriorateFast, deteriorate, exchangeStage,
    exchangeHit, nextStage, nextHit, setData, absorb, absorbSub, countWeight,
    selectInteractionIdxsAndNextMotionType, frontFacingWithinSphere,
    findWithinSphereIndexes, selectMotionType, V3.distSq, V3.dot, List.enum,
    List.enumFrom, List.range_succ, List.filterMap_cons, List.filterMap_nil,
    rndC1, oracleC1, surfelC1, surfC1data, hitC1, tonC1]

theorem bounceLoopC1_count (n : Nat) :
    (bounceLoop rndC1 oracleC1 n ([surfelC1], [hitC1])).2 = n := by
  induction n with
  | zero => rfl
  | succ m ih =>
    simp only [bounceLoop, List.isEmpty_cons, Bool.false_eq_true, if_false,
      traceDeepenC1_fixpoint, ih]

/-- C1 counterexample: `run_fast`'s bounce loop, driven by a ton that
keeps choosing Straight and a tracer that keeps hitting, executes its
body 129 times — more than the claimed cap of MAX_BOUNCES = 128 — with
`hits` never becoming empty; the source has no MAX_BOUNCES constant at
all (a TODO at src/sim.rs line 84 notes the missing cap). -/
theorem c1_bounce_loop_exceeds_claimed_cap :
    128 < (bounceLoop rndC1 oracleC1 129 ([surfelC1], [hitC1])).2 := by
  rw [bounceLoopC1_count 129]
  norm_num

/-- C1 (amended): the bounce loop of `run_fast` repeats while `hits` is
non-empty with no iteration cap — its guard is exactly non-emptiness
(first conjunct), and for every n there is a run whose loop body executes
n times (second conjunct); no leak warning exists in the loop. -/
theorem c1_bounce_loop_guard_is_nonemptiness :
    (∀ (rnd : Nat → ℚ) (oracle : TraceOracle) (samples : List Surfel)
        (hits : List HitRec) (fuel : Nat),
      ((bounceLoop rnd oracle (fuel + 1) (samples, hits)).2 = 0 ↔ hits = []))
    ∧ (∀ n : Nat, (bounceLoop rndC1 oracleC1 n ([surfelC1], [hitC1])).2 = n) := by
  constructor
  · intro rnd oracle samples hits fuel
    cases hits with
    | nil => simp [bounceLoop]
    | cons h hs => simp [bounceLoop]
  · exact bounceLoopC1_count

/-! ## Emission collection in run_fast (claim C10) -/

/-- Embeds `TonEmission` from src/ton.rs lines 88-92. -/
structure TonEmission where
  origin : V3
  direction : V3
  ton : Ton

/-- A ton source as consumed by `run_fast`: its `emission_count` plus
`emit_one`, whose sampled origin, direction and prototype-copied ton are
an oracle over the emission index (shape sampling and the ambient prng
are external, src/ton.rs lines 96-141). -/
structure TonSource where
  emission_count : Nat
  emit_one : Nat → TonEmission

/-- One round of the emission loop of `run_fast` (src/sim.rs lines
70-73): rayon's `collect_into_vec` truncates the target vector and fills
it with exactly this source's `emission_count` emissions. -/
def collectIntoVec (source : TonSource) : List TonEmission :=
  (List.range source.emission_count).map source.emit_one

/-- The emission loop of `run_fast` (src/sim.rs lines 63-74): the rounds
run per source in order, each round overwriting the shared `emissions`
vector. -/
def collectEmissions (sources : List TonSource) : List TonEmission :=
  sources.foldl (fun _ source => collectIntoVec source) []

/-- `Simulation::initial_hits` from src/sim.rs lines 92-99, the straight
trace abstracted to an oracle over the emission. -/
def initialHits (trace_straight : TonEmission → Option (V3 × V3 × Tri)) (emissions : List TonEmission) : List HitRec :=
  emissions.filterMap fun e =>
    (trace_straight e).map fun g =>
      { ton := e.ton, intersection_point := g.1, incoming_direction := g.2.1, triangle := g.2.2 }

/-- The hits that seed the bounce loop of `run_fast` (src/sim.rs lines
62-82): the initial straight traces of the collected emissions. -/
def runFastInitialHits (trace_straight : TonEmission → Option (V3 × V3 × Tri)) (sources : List TonSource) : List HitRec :=
  initialHits trace_straight (collectEmissions sources)

/-- C10: however many sources precede it, the emissions surviving the
collection loop of `run_fast` are exactly the `emission_count` emissions
of the LAST source — every earlier round is overwritten by
`collect_into_vec` — so only the last source's emissions reach the
initial straight trace, and the earlier sources have no effect on it. -/
theorem c10_only_last_source_reaches_tracing (init : List TonSource) (last : TonSource)
    (trace_straight : TonEmission → Option (V3 × V3 × Tri)) :
    collectEmissions (init ++ [last]) = collectIntoVec last
    ∧ (collectEmissions (init ++ [last])).length = last.emission_count
    ∧ runFastInitialHits trace_straight (init ++ [last])
        = initialHits trace_straight (collectIntoVec last) := by
  have h1 : collectEmissions (init ++ [last]) = collectIntoVec last := by
    simp [collectEmissions, List.foldl_append]
  refine ⟨h1, ?_, ?_⟩
  · rw [h1]; simp [collectIntoVec]
  · simp [runFastInitialHits, h1]

/-! ## The flow tracer (claim C9), over exact reals

The tracer geometry is the octree of the external aitios-spatial crate,
abstracted to its closest-hit query interface (spec section 6); scalars
are exact reals, since `trace_flow` computes a square root. -/

/-- 3D vector over ℝ for the tracer geometry. -/
structure V3R where
  x : ℝ
  y : ℝ
  z : ℝ

noncomputable instance : Add V3R := ⟨fun a b => ⟨a.x + b.x, a.y + b.y, a.z + b.z⟩⟩

noncomputable instance : Sub V3R := ⟨fun a b => ⟨a.x - b.x, a.y - b.y, a.z - b.z⟩⟩

noncomputable instance : SMul ℝ V3R := ⟨fun c v => ⟨c * v.x, c * v.y, c * v.z⟩⟩

/-- Euclidean magnitude. -/
noncomputable def V3R.norm (v : V3R) : ℝ := Real.sqrt (v.x ^ 2 + v.y ^ 2 + v.z ^ 2)

/-- Embeds cgmath's `normalize`: the vector scaled by the reciprocal of
its magnitude. -/
noncomputable def V3R.normalize (v : V3R) : V3R := (1 / V3R.norm v) • v

/-- `SELF_INTERSECTION_EPSILON = 0.0001` from src/tracer.rs line 19. -/
noncomputable def SELF_INTERSECTION_EPSILON : ℝ := 1 / 10000

/-- `FLOW_ADHESIVENESS = 1.1` from src/tracer.rs line 20. -/
noncomputable def FLOW_ADHESIVENESS : ℝ := 11 / 10

/-- A tracer hit over an opaque triangle type `τ` (src/tracer.rs
lines 29-34). -/
structure HitR (τ : Type) where
  intersection_point : V3R
  incoming_direction : V3R
  triangle : τ

/-- The octree interface consumed by the tracer (external aitios-spatial
crate): closest-hit segment and ray queries returning the hit triangle
and the ray parameter `t`, plus the gravity direction stored in the
tracer (`(0, −1, 0)` by default). -/
structure Geometry (τ : Type) where
  line_segment_intersection : V3R → V3R → ℝ → Option (τ × ℝ)
  ray_intersection : V3R → V3R → Option (τ × ℝ)
  gravity_direction : V3R

/-- `Tracer::trace_flow` from src/tracer.rs lines 128-228: nudge the
origin along `up`; probe an upward segment of length
`flow_distance * 1.3`; failing that, probe the tangential/downward
segment from `atop` toward the expected flow target, for the expected
distance plus `FLOW_ADHESIVENESS`; failing that, cast an unbounded
gravity ray from that segment's endpoint. -/
noncomputable def traceFlow {τ : Type} (g : Geometry τ) (start up tangential_direction : V3R) (flow_distance : ℝ) : Option (HitR τ) :=
  let upward_epsilon := flow_distance * (13 / 10)
  let start1 := start + SELF_INTERSECTION_EPSILON • up
  let target := start1 + flow_distance • tangential_direction
  match g.line_segment_intersection start1 up upward_epsilon with
  | some ht =>
      some { intersection_point := start1 + ht.2 • up, incoming_direction := up, triangle := ht.1 }
  | none =>
      let atop := start1 + upward_epsilon • up
      let dir := V3R.normalize (target - atop)
      let expected_dist_sqr := upward_epsilon * upward_epsilon + flow_distance * flow_distance
      let expected_dist := Real.sqrt expected_dist_sqr
      match g.line_segment_intersection atop dir (expected_dist + FLOW_ADHESIVENESS) with
      | some ht =>
          some { intersection_point := atop + ht.2 • dir, incoming_direction := dir, triangle := ht.1 }
      | none =>
          let start2 := atop + (expected_dist + FLOW_ADHESIVENESS) • dir
          match g.ray_intersection start2 g.gravity_direction with
          | some ht =>
              some { intersection_point := start2 + ht.2 • g.gravity_direction, incoming_direction := g.gravity_direction, triangle := ht.1 }
          | none => none

/-- The flow probe sequence as the claim words it: origin nudged by
`SELF_INTERSECTION_EPSILON · up`; an upward segment along `up` of length
`1.3 · flow_distance` probed first; otherwise a segment from
`atop = nudged + 1.3 · flow_distance · up` toward
`to = nudged + flow_distance · tangential_direction` with maximum length
`sqrt((1.3 · flow_distance)² + flow_distance²) + 1.1`; otherwise an
unbounded ray along the gravity direction from that segment's endpoint;
`none` exactly when all three probes miss. -/
noncomputable def traceFlowSpec {τ : Type} (g : Geometry τ) (start up tangential_direction : V3R) (flow_distance : ℝ) : Option (HitR τ) :=
  let nudged := start + SELF_INTERSECTION_EPSILON • up
  match g.line_segment_intersection nudged up ((13 / 10) * flow_distance) with
  | some ht =>
      some { intersection_point := nudged + ht.2 • up, incoming_direction := up, triangle := ht.1 }
  | none =>
      let atop := nudged + ((13 / 10) * flow_distance) • up
      let target := nudged + flow_distance • tangential_direction
      let dir := V3R.normalize (target - atop)
      let len := Real.sqrt (((13 / 10) * flow_distance) ^ 2 + flow_distance ^ 2) + 11 / 10
      match g.line_segment_intersection atop dir len with
      | some ht =>
          some { intersection_point := atop + ht.2 • dir, incoming_direction := dir, triangle := ht.1 }
      | none =>
          match g.ray_intersection (atop + len • dir) g.gravity_direction with
          | some ht =>
              some { intersection_point := atop + len • dir + ht.2 • g.gravity_direction, incoming_direction := g.gravity_direction, triangle := ht.1 }
          | none => none

/-- C9: `trace_flow` performs exactly the three probes of the claim, in
order and with the claimed parameters (first conjunct, against the
claim-side description), and returns `none` exactly when all three
probes miss (second conjunct). -/
theorem c9_trace_flow_three_probes {τ : Type} (g : Geometry τ)
    (start up tangential_direction : V3R) (flow_distance : ℝ) :
    traceFlow g start up tangential_direction flow_distance
      = traceFlowSpec g start up tangential_direction flow_distance
    ∧ (traceFlow g start up tangential_direction flow_distance = none ↔
        (g.line_segment_intersection (start + SELF_INTERSECTION_EPSILON • up) up
            ((13 / 10) * flow_distance) = none
          ∧ g.line_segment_intersection
              (start + SELF_INTERSECTION_EPSILON • up + ((13 / 10) * flow_distance) • up)
              (V3R.normalize (start + SELF_INTERSECTION_EPSILON • up + flow_distance • tangential_direction
                - (start + SELF_INTERSECTION_EPSILON • up + ((13 / 10) * flow_distance) • up)))
              (Real.sqrt (((13 / 10) * flow_distance) ^ 2 + flow_distance ^ 2) + 11 / 10) = none
          ∧ g.ray_intersection
              (start + SELF_INTERSECTION_EPSILON • up + ((13 / 10) * flow_distance) • up
                + (Real.sqrt (((13 / 10) * flow_distance) ^ 2 + flow_distance ^ 2) + 11 / 10)
                  • V3R.normalize (start + SELF_INTERSECTION_EPSILON • up + flow_distance • tangential_direction
                    - (start + SELF_INTERSECTION_EPSILON • up + ((13 / 10) * flow_distance) • up)))
              g.gravity_direction = none)) := by
  have e1 : flow_distance * (13 / 10 : ℝ) = (13 / 10 : ℝ) * flow_distance := mul_comm _ _
  have e2 : ((13 / 10 : ℝ) * flow_distance) * ((13 / 10 : ℝ) * flow_distance)
      + flow_distance * flow_distance
      = ((13 / 10 : ℝ) * flow_distance) ^ 2 + flow_distance ^ 2 := by ring
  have heq : traceFlow g start up tangential_direction flow_distance
      = traceFlowSpec g start up tangential_direction flow_distance := by
    simp only [traceFlow, traceFlowSpec, FLOW_ADHESIVENESS, e1, e2]
  refine ⟨heq, ?_⟩
  rw [heq]
  simp only [traceFlowSpec]
  cases h1 : g.line_segment_intersection (start + SELF_INTERSECTION_EPSILON • up) up
      ((13 / 10) * flow_distance) with
  | some ht => simp [h1]
  | none =>
    cases h2 : g.line_segment_intersection
        (start + SELF_INTERSECTION_EPSILON • up + ((13 / 10) * flow_distance) • up)
        (V3R.normalize (start + SELF_INTERSECTION_EPSILON • up + flow_distance • tangential_direction
          - (start + SELF_INTERSECTION_EPSILON • up + ((13 / 10) * flow_distance) • up)))
        (Real.sqrt (((13 / 10) * flow_distance) ^ 2 + flow_distance ^ 2) + 11 / 10) with
    | some ht => simp [h1, h2]
    | none =>
      cases h3 : g.ray_intersection
          (start + SELF_INTERSECTION_EPSILON • up + ((13 / 10) * flow_distance) • up
            + (Real.sqrt (((13 / 10) * flow_distance) ^ 2 + flow_distance ^ 2) + 11 / 10)
              • V3R.normalize (start + SELF_INTERSECTION_EPSILON • up + flow_distance • tangential_direction
                - (start + SELF_INTERSECTION_EPSILON • up + ((13 / 10) * flow_distance) • up)))
          g.gravity_direction with
      | some ht => simp [h1, h2, h3]
      | none => simp [h1, h2, h3]

end AitiosSim
